import Mathlib

/-!
Verification of the indexing core of `safe-transaction-service`
(`safe_transaction_service/history`): a shallow embedding in Lean 4 of the
trace-persistence layer (`models.py`), the internal-transaction indexer
(`indexers/internal_tx_indexer.py`) and the delegate-signature helper
(`helpers.py`), with theorems settling the specification's claims about them.

Conventions of the embedding:
* Python byte strings are `List Nat`; addresses, hashes and stored
  `trace_address` strings are `String`; database tables are `List` of row
  structures; nullable columns are `Option`.
* Python's truthiness-based `a or b` is modelled explicitly (`pyOrBytes`,
  `pyOrStr`, `pyOrNat`): `None`, `0`, `''` and `b''` are falsy.
* Fallible code returns `Option` / `Except`.
-/

namespace SafeTxService

/-! ## Python `or` (truthiness) helpers -/

/-- Python `a or b` where both operands are optional byte strings:
`None` and `b''` are falsy. -/
def pyOrBytes (a b : Option (List Nat)) : Option (List Nat) :=
  match a with
  | some l => if l.isEmpty then b else some l
  | none => b

/-- Python `a or b` where both operands are optional strings:
`None` and `''` are falsy. -/
def pyOrStr (a b : Option String) : Option String :=
  match a with
  | some s => if s.isEmpty then b else some s
  | none => b

/-- Python `a or d` where `a` is an optional integer and `d` a default:
`None` and `0` are falsy. -/
def pyOrNat (a : Option Nat) (d : Nat) : Nat :=
  match a with
  | some v => if v = 0 then d else v
  | none => d

/-- Python `str.upper()` (character-wise; the inputs of interest are
ASCII). -/
def pyUpper (s : String) : String := ⟨s.data.map Char.toUpper⟩

/-- Python `str.lower()` (character-wise; the inputs of interest are
ASCII). -/
def pyLower (s : String) : String := ⟨s.data.map Char.toLower⟩

/-! ## Enums (`EthereumTxCallType`, `EthereumTxType`), from `models.py` -/

/-- `EthereumTxCallType.CALL.value` -/
def callTypeCALL : Nat := 0

/-- `EthereumTxCallType.DELEGATE_CALL.value` -/
def callTypeDELEGATE : Nat := 1

/-- `EthereumTxCallType.parse_call_type`: `None`/`''` map to `None`, `'call'`
to CALL, `'delegatecall'` and `'delegatecode'` to DELEGATE_CALL (matching is
on the lower-cased string), anything else to `None`. -/
def parse_call_type (call_type : Option String) : Option Nat :=
  match call_type with
  | none => none
  | some s =>
    if s.isEmpty then none
    else if pyLower s = "call" then some callTypeCALL
    else if pyLower s = "delegatecall" then some callTypeDELEGATE
    else if pyLower s = "delegatecode" then some callTypeDELEGATE
    else none

/-- `EthereumTxType.CALL.value` -/
def txTypeCALL : Nat := 0

/-- `EthereumTxType.CREATE.value` -/
def txTypeCREATE : Nat := 1

/-- `EthereumTxType.SELF_DESTRUCT.value` -/
def txTypeSELFDESTRUCT : Nat := 2

/-- `EthereumTxType.parse`: upper-cases its argument, maps `CALL`, `CREATE`
and `SUICIDE` to the enum values and raises `ValueError` (here: `none`)
otherwise. -/
def EthereumTxType.parse (tx_type : String) : Option Nat :=
  let u := pyUpper tx_type
  if u = "CALL" then some txTypeCALL
  else if u = "CREATE" then some txTypeCREATE
  else if u = "SUICIDE" then some txTypeSELFDESTRUCT
  else none

/-! ## Trace frames and `build_from_trace` -/

/-- The `result` sub-dictionary of a parity trace frame. -/
structure TraceResult where
  gasUsed : Option Nat
  address : Option String
  code : Option (List Nat)
  output : Option (List Nat)
  deriving Repr, DecidableEq

/-- A parity trace frame as consumed by `InternalTxManager.build_from_trace`:
the `type`, the `action` sub-dictionary (flattened; absent keys are `none`),
the optional `result` sub-dictionary, the optional `error` and the
`traceAddress` list of integers. -/
structure Trace where
  type_ : String
  actionFrom : Option String
  actionGas : Option Nat
  actionInput : Option (List Nat)
  actionInit : Option (List Nat)
  actionTo : Option String
  actionAddress : Option String
  actionValue : Option Nat
  actionBalance : Option Nat
  actionCallType : Option String
  actionRefundAddress : Option String
  result : Option TraceResult
  error : Option String
  traceAddress : List Nat
  transactionHash : String
  deriving Repr, DecidableEq

/-- `InternalTxManager._trace_address_to_str`: `','.join(str(a) for a in l)`. -/
def traceAddressToStr : List Nat → String
  | [] => ""
  | [a] => toString a
  | a :: rest => toString a ++ "," ++ traceAddressToStr rest

/-- An `InternalTx` row as built by `build_from_trace` (the `ethereum_tx`
foreign key is carried as the referenced tx hash). -/
structure InternalTxRow where
  ethereumTxId : String
  traceAddress : String
  fromAddr : Option String
  gas : Nat
  data : Option (List Nat)
  toAddr : Option String
  value : Nat
  gasUsed : Nat
  contractAddress : Option String
  codeBytes : Option (List Nat)
  output : Option (List Nat)
  refundAddress : Option String
  txType : Nat
  callType : Option Nat
  error : Option String
  deriving Repr, DecidableEq

/-- `InternalTxManager.build_from_trace` (`models.py:283`).  Returns `none`
when `EthereumTxType.parse` raises `ValueError`. Python `or` between dict
lookups is rendered with the `pyOr*` helpers; `.get(k, 0)` with `.getD`. -/
def build_from_trace (trace : Trace) (ethereumTxId : String) : Option InternalTxRow :=
  match EthereumTxType.parse trace.type_ with
  | none => none
  | some txType =>
    let callType := parse_call_type trace.actionCallType
    some {
      ethereumTxId := ethereumTxId
      traceAddress := traceAddressToStr trace.traceAddress
      fromAddr := trace.actionFrom
      gas := trace.actionGas.getD 0
      data := pyOrBytes trace.actionInput trace.actionInit
      toAddr := pyOrStr trace.actionTo trace.actionAddress
      value := pyOrNat trace.actionValue ((trace.actionBalance).getD 0)
      gasUsed := ((trace.result.map TraceResult.gasUsed).getD none).getD 0
      contractAddress := (trace.result.map TraceResult.address).getD none
      codeBytes := (trace.result.map TraceResult.code).getD none
      output := (trace.result.map TraceResult.output).getD none
      refundAddress := trace.actionRefundAddress
      txType := txType
      callType := callType
      error := trace.error
    }

/-! ## Database rows for the history tables -/

/-- An `EthereumTx` row, restricted to the columns the claims consult. -/
structure EthereumTxRow where
  txHash : String
  status : Option Int
  deriving Repr, DecidableEq

/-- An `InternalTxDecoded` row (primary key = its `InternalTx`, carried as
the pair `(ethereumTxId, traceAddress)`). -/
structure InternalTxDecodedRow where
  ethereumTxId : String
  traceAddress : String
  functionName : String
  processed : Bool
  deriving Repr, DecidableEq

/-- The relevant slice of the database. -/
structure Db where
  ethereumTxs : List EthereumTxRow
  internalTxs : List InternalTxRow
  decodedTxs : List InternalTxDecodedRow
  deriving Repr, DecidableEq

/-- Django's `s__startswith=p` on char fields: `s` starts with the string
`p`. -/
def strStartsWith (s p : String) : Bool :=
  p.data.isPrefixOf s.data

/-- The `parent_errored_query` subquery of
`InternalTxQuerySet.can_be_decoded` (`models.py:395`), which is also the body
of `InternalTx.parent_is_errored` (`models.py:483`): some row of the same
`ethereum_tx` whose `trace_address` is a string prefix of this row's has
`error != NULL`. -/
def parentErrored (db : Db) (itx : InternalTxRow) : Bool :=
  db.internalTxs.any (fun p =>
    p.ethereumTxId == itx.ethereumTxId
      && strStartsWith itx.traceAddress p.traceAddress
      && p.error.isSome)

/-- Join `internal_tx -> ethereum_tx` and read `status`. -/
def ethereumTxStatus (db : Db) (txId : String) : Option Int :=
  match db.ethereumTxs.find? (fun t => t.txHash == txId) with
  | some t => t.status
  | none => none

/-- `decoded_tx=None` test: whether an `InternalTxDecoded` row exists for
this `InternalTx`. -/
def isDecoded (db : Db) (itx : InternalTxRow) : Bool :=
  db.decodedTxs.any (fun d =>
    d.ethereumTxId == itx.ethereumTxId && d.traceAddress == itx.traceAddress)

/-- `InternalTxQuerySet.can_be_decoded` (`models.py:382`) as a row
predicate: `exclude(data=None)`, then `call_type=DELEGATE_CALL`,
`error=None`, `ethereum_tx__status=1`, `decoded_tx=None`,
`parent_errored=None`. -/
def can_be_decoded_qs (db : Db) (itx : InternalTxRow) : Bool :=
  itx.data.isSome
    && itx.callType == some callTypeDELEGATE
    && itx.error == none
    && (ethereumTxStatus db itx.ethereumTxId == some 1)
    && !(isDecoded db itx)
    && !(parentErrored db itx)

/-- `InternalTx.is_delegate_call` (`models.py:473`). -/
def is_delegate_call (itx : InternalTxRow) : Bool :=
  itx.callType == some callTypeDELEGATE

/-- Python truthiness of `not self.error`: `None` and `''` are falsy. -/
def errorFalsy : Option String → Bool
  | none => true
  | some s => s.isEmpty

/-- Python truthiness of `self.data`: `None` and `b''` are falsy. -/
def dataTruthy : Option (List Nat) → Bool
  | none => false
  | some l => !l.isEmpty

/-- The instance property `InternalTx.can_be_decoded` (`models.py:450`),
used by the indexer when deciding which freshly stored rows to decode. -/
def can_be_decoded_inst (db : Db) (itx : InternalTxRow) : Bool :=
  is_delegate_call itx
    && errorFalsy itx.error
    && dataTruthy itx.data
    && (ethereumTxStatus db itx.ethereumTxId == some 1)
    && !(parentErrored db itx)

/-! ## Reachable database states

`InternalTxIndexer.process_elements` (`internal_tx_indexer.py:120`) stores,
inside one atomic transaction, the complete list of trace frames of each
newly indexed `EthereumTx` (fetched with `trace_transaction`, which returns
the whole call tree), and then an `InternalTxDecoded(processed=false)` row
for every stored `InternalTx` whose `can_be_decoded` property holds and
whose calldata the decoder accepts.  `indexTx` is one such step for a single
fresh transaction; `Reachable` closes the empty database under these
steps. -/

/-- The database right after the bulk insert of one transaction and its
traces, before decoding. -/
def dbAfterInsert (db : Db) (txRow : EthereumTxRow)
    (traces : List InternalTxRow) : Db :=
  { ethereumTxs := db.ethereumTxs ++ [txRow]
    internalTxs := db.internalTxs ++ traces
    decodedTxs := db.decodedTxs }

/-- Index one transaction: append its `EthereumTx` row and its full list of
trace rows, then append a decoded row for every new trace accepted by
`can_be_decoded` (evaluated against the post-insert database) whose data the
decoder (`decode`, `none` = `CannotDecode`) can decode. -/
def indexTx (db : Db) (txRow : EthereumTxRow) (traces : List InternalTxRow)
    (decode : InternalTxRow → Option String) : Db :=
  { dbAfterInsert db txRow traces with
    decodedTxs := db.decodedTxs ++
      (traces.filter (fun itx =>
          can_be_decoded_inst (dbAfterInsert db txRow traces) itx
            && (decode itx).isSome)).map
        (fun itx =>
          { ethereumTxId := itx.ethereumTxId
            traceAddress := itx.traceAddress
            functionName := ((decode itx).getD "")
            processed := false }) }

/-- Database states reachable from empty by indexing fresh transactions. -/
inductive Reachable : Db → Prop where
  | nil : Reachable ⟨[], [], []⟩
  | index (db : Db) (txRow : EthereumTxRow) (traces : List InternalTxRow)
      (decode : InternalTxRow → Option String)
      (hfresh : ∀ p ∈ db.internalTxs, p.ethereumTxId ≠ txRow.txHash)
      (hfreshd : ∀ d ∈ db.decodedTxs, d.ethereumTxId ≠ txRow.txHash)
      (htr : ∀ itx ∈ traces, itx.ethereumTxId = txRow.txHash)
      (hr : Reachable db) : Reachable (indexTx db txRow traces decode)

/-- No decoded row has an ancestor (string-prefix `trace_address`, same
transaction) with a non-NULL error. -/
def ErroredAncestorFreeStr (db : Db) : Prop :=
  ∀ d ∈ db.decodedTxs, ∀ p ∈ db.internalTxs,
    p.ethereumTxId = d.ethereumTxId →
    strStartsWith d.traceAddress p.traceAddress = true →
    p.error = none

/-- No decoded row has an ancestor (strict prefix as a sequence of integer
trace-address components, same transaction) with a non-NULL error: the
claim's phrasing of the invariant. -/
def ErroredAncestorFree (db : Db) : Prop :=
  ∀ d ∈ db.decodedTxs, ∀ p ∈ db.internalTxs,
    p.ethereumTxId = d.ethereumTxId →
    (∃ l1 l2, l2 ≠ [] ∧ p.traceAddress = traceAddressToStr l1 ∧
        d.traceAddress = traceAddressToStr (l1 ++ l2)) →
    p.error = none

/-- The selection predicate of the claim about `can_be_decoded`, amended
where the code forced it: `data` is non-NULL (empty-but-present calldata
passes `exclude(data=None)`), and the ancestor relation is *string* prefix
of the stored comma-joined `trace_address` (so the errored `"1"` also blocks
`"10"`), not strict prefix of the integer sequence. -/
def AmendedDecodable (db : Db) (itx : InternalTxRow) : Prop :=
  itx.callType = some callTypeDELEGATE ∧
  itx.error = none ∧
  itx.data ≠ none ∧
  ethereumTxStatus db itx.ethereumTxId = some 1 ∧
  (¬ ∃ d ∈ db.decodedTxs,
      d.ethereumTxId = itx.ethereumTxId ∧ d.traceAddress = itx.traceAddress) ∧
  (¬ ∃ p ∈ db.internalTxs, p.ethereumTxId = itx.ethereumTxId ∧
      strStartsWith itx.traceAddress p.traceAddress = true ∧ p.error ≠ none)

/-- The selection predicate as the claim words it: call type DELEGATE_CALL,
NULL error, non-empty data, enclosing tx status 1, not already decoded, and
no trace of the same transaction whose `trace_address` is a *strict prefix
as a sequence of integers* of this one's is errored. -/
def ClaimDecodable (db : Db) (itx : InternalTxRow) : Prop :=
  itx.callType = some callTypeDELEGATE ∧
  itx.error = none ∧
  (∃ l, itx.data = some l ∧ l ≠ []) ∧
  ethereumTxStatus db itx.ethereumTxId = some 1 ∧
  (¬ ∃ d ∈ db.decodedTxs,
      d.ethereumTxId = itx.ethereumTxId ∧ d.traceAddress = itx.traceAddress) ∧
  (¬ ∃ p ∈ db.internalTxs, p.ethereumTxId = itx.ethereumTxId ∧ p.error ≠ none ∧
      ∃ l1 l2, l2 ≠ [] ∧ p.traceAddress = traceAddressToStr l1 ∧
        itx.traceAddress = traceAddressToStr (l1 ++ l2))

/-- A concrete `InternalTx` row of transaction `"T"` used in examples. -/
def exITx (trace : String) (ct : Option Nat) (d : Option (List Nat))
    (err : Option String) : InternalTxRow :=
  { ethereumTxId := "T"
    traceAddress := trace
    fromAddr := some "F"
    gas := 0
    data := d
    toAddr := some "M"
    value := 0
    gasUsed := 0
    contractAddress := none
    codeBytes := none
    output := none
    refundAddress := none
    txType := txTypeCALL
    callType := ct
    error := err }

/-- A concrete database: transaction `"T"` succeeded; trace `"1"` errored;
trace `"10"` is a clean delegate call with calldata; trace `"2"` is a clean
delegate call whose calldata is present but empty. -/
def exDb : Db :=
  { ethereumTxs := [⟨"T", some 1⟩]
    internalTxs :=
      [exITx "1" none none (some "Reverted")
      , exITx "10" (some 1) (some [1]) none
      , exITx "2" (some 1) (some []) none]
    decodedTxs := [] }

/-- A concrete database with a single clean decodable delegate call. -/
def exDbOk : Db :=
  { ethereumTxs := [⟨"T", some 1⟩]
    internalTxs := [exITx "0,0" (some 1) (some [1, 2]) none]
    decodedTxs := [] }

/-! ## The processor's pending queue (`pending_for_safes`) -/

/-- One row of the queryset underlying
`InternalTxDecodedQuerySet.pending_for_safes`: the decoded row together with
the joined columns used for filtering and ordering. -/
structure PendingRow where
  blockId : Nat
  transactionIndex : Nat
  traceAddress : String
  fromAddr : Option String
  functionName : String
  processed : Bool
  deriving Repr, DecidableEq

/-- Code-point lexicographic comparison of character lists; the model of SQL
ascending ordering on a text column (byte order; trace-address strings are
ASCII digits and commas). -/
def charListLe : List Char → List Char → Bool
  | [], _ => true
  | _ :: _, [] => false
  | a :: as, b :: bs => if a < b then true else if b < a then false else charListLe as bs

/-- Ascending text comparison of two strings. -/
def strLeB (a b : String) : Bool := charListLe a.data b.data

/-- The `ORDER BY` key of `pending_for_safes` (`models.py:557`): block id,
then transaction index, then `trace_address` as a text column. -/
def pendingLeB (r1 r2 : PendingRow) : Bool :=
  if r1.blockId < r2.blockId then true
  else if r2.blockId < r1.blockId then false
  else if r1.transactionIndex < r2.transactionIndex then true
  else if r2.transactionIndex < r1.transactionIndex then false
  else strLeB r1.traceAddress r2.traceAddress

/-- `pendingLeB` as a relation. -/
def pendingLe (r1 r2 : PendingRow) : Prop := pendingLeB r1 r2 = true

instance : DecidableRel pendingLe := fun r1 r2 => instDecidableEqBool (pendingLeB r1 r2) true

/-- SQL `column IN (list)` on a nullable column: NULL matches nothing. -/
def optMem (a : Option String) (l : List String) : Bool :=
  match a with
  | some s => l.contains s
  | none => false

/-- `InternalTxDecodedQuerySet.pending_for_safes` (`models.py:545`):
not-processed rows whose `internal_tx._from` is an indexed Safe or whose
`function_name` is `"setup"`, ordered by
`(block id, transaction index, trace_address)`.  SQL's `ORDER BY` is any
sorted permutation; `insertionSort` realises one. -/
def pending_for_safes (safeAddresses : List String) (rows : List PendingRow) :
    List PendingRow :=
  List.insertionSort pendingLe
    (rows.filter (fun r =>
      !r.processed && (optMem r.fromAddr safeAddresses || r.functionName == "setup")))

/-- Strict lexicographic order on integer sequences: the ordering the claim
asserts for `trace_address`. -/
def natSeqLt : List Nat → List Nat → Bool
  | [], [] => false
  | [], _ :: _ => true
  | _ :: _, [] => false
  | a :: as, b :: bs => if a < b then true else if b < a then false else natSeqLt as bs

/-! ## Internal-tx indexer trace discovery (`find_relevant_elements`) -/

/-- The slice of a trace frame consulted during discovery. -/
structure TraceMini where
  actionFrom : Option String
  actionTo : Option String
  transactionHash : String
  deriving Repr, DecidableEq

/-- `OrderedDict.fromkeys(l).keys()`: deduplicate keeping the first
occurrence of every element (`seen` accumulates what was kept so far). -/
def dedupFirst (seen : List String) : List String → List String
  | [] => []
  | a :: rest =>
    if a ∈ seen then dedupFirst seen rest else a :: dedupFirst (a :: seen) rest

/-- The relevance filter of `_find_relevant_elements_using_trace_block`:
`action.from in addresses or action.to in addresses`. -/
def traceRelevant (addresses : List String) (t : TraceMini) : Bool :=
  optMem t.actionFrom addresses || optMem t.actionTo addresses

/-- `InternalTxIndexer._find_relevant_elements_using_trace_block`
(`internal_tx_indexer.py:72`): `trace_blocks` over
`range(from, to + 1)` (the oracle `traceBlocks` gives each block's traces),
keep hashes of traces touching a monitored address, deduplicate keeping
first occurrences. -/
def findRelevantUsingTraceBlock (traceBlocks : Nat → List TraceMini)
    (addresses : List String) (fromBlock toBlock : Nat) : List String :=
  dedupFirst []
    (((List.range' fromBlock (toBlock + 1 - fromBlock)).flatMap
        (fun n => (traceBlocks n).filter (traceRelevant addresses))).map
      TraceMini.transactionHash)

/-- `InternalTxIndexer._find_relevant_elements_using_trace_filter`
(`internal_tx_indexer.py:88`): one `trace_filter` call with
`to_address=addresses` (oracle argument `true`) and one with
`from_address=addresses` (`false`); hashes of the concatenation,
deduplicated keeping first occurrences. -/
def findRelevantUsingTraceFilter
    (traceFilter : Nat → Nat → Bool → List String → List TraceMini)
    (addresses : List String) (fromBlock toBlock : Nat) : List String :=
  dedupFirst []
    ((traceFilter fromBlock toBlock true addresses ++
        traceFilter fromBlock toBlock false addresses).map
      TraceMini.transactionHash)

/-- `self.number_trace_blocks` (`internal_tx_indexer.py:40`). -/
def numberTraceBlocks : Nat := 10

/-- `InternalTxIndexer.find_relevant_elements` (`internal_tx_indexer.py:50`):
`trace_block` near the head, `trace_filter` for older ranges, the
concatenation of both (deduplicated) across the boundary
`max(current_block_number - number_trace_blocks, 0)` (which on naturals is
truncated subtraction). -/
def find_relevant_elements (traceBlocks : Nat → List TraceMini)
    (traceFilter : Nat → Nat → Bool → List String → List TraceMini)
    (addresses : List String) (fromBlock toBlock currentBlock : Nat) :
    List String :=
  let traceBlockNumber := currentBlock - numberTraceBlocks
  if fromBlock > traceBlockNumber then
    findRelevantUsingTraceBlock traceBlocks addresses fromBlock toBlock
  else if toBlock < traceBlockNumber then
    findRelevantUsingTraceFilter traceFilter addresses fromBlock toBlock
  else
    dedupFirst []
      (findRelevantUsingTraceFilter traceFilter addresses fromBlock traceBlockNumber ++
        findRelevantUsingTraceBlock traceBlocks addresses traceBlockNumber toBlock)

/-! ## Monitored-address cursors -/

/-- A `MonitoredAddress` row restricted to its key and the chosen cursor
column (`tx_block_number` or `erc20_block_number`); the cursor is nullable
(`tx_block_number` has `null=True`). -/
structure MonitoredAddressRow where
  address : String
  cursor : Option Int
  deriving Repr, DecidableEq

/-- The per-row effect of `MonitoredAddressManager.update_addresses`'s
UPDATE (`models.py:748`): rows whose address is listed and whose cursor
satisfies `>= from_block_number - 1` (SQL: a NULL cursor matches nothing)
get the cursor set to `block_number`. -/
def updateAddressRow (addresses : List String) (fromBlockNumber blockNumber : Int)
    (r : MonitoredAddressRow) : MonitoredAddressRow :=
  if addresses.contains r.address
      && (match r.cursor with
          | some c => decide (fromBlockNumber - 1 ≤ c)
          | none => false) then
    { r with cursor := some blockNumber }
  else r

/-- `MonitoredAddressManager.update_addresses` over the whole table (the
source returns the count of updated rows; the claims concern the resulting
rows). -/
def update_addresses (addresses : List String) (fromBlockNumber blockNumber : Int)
    (rows : List MonitoredAddressRow) : List MonitoredAddressRow :=
  rows.map (updateAddressRow addresses fromBlockNumber blockNumber)

/-- `MonitoredAddressQuerySet.not_updated` (`models.py:762`) as a row
predicate: cursor `< current_block_number - confirmations` (NULL cursor
matches nothing). -/
def not_updated (currentBlockNumber confirmations : Int)
    (r : MonitoredAddressRow) : Bool :=
  match r.cursor with
  | some c => decide (c < currentBlockNumber - confirmations)
  | none => false

/-- `MonitoredAddressQuerySet.almost_updated` (`models.py:756`) as a row
predicate: cursor `< current_block_number - confirmations` and
`> current_block_number - updated_blocks_behind`. -/
def almost_updated (currentBlockNumber updatedBlocksBehind confirmations : Int)
    (r : MonitoredAddressRow) : Bool :=
  match r.cursor with
  | some c =>
    decide (c < currentBlockNumber - confirmations) &&
      decide (currentBlockNumber - updatedBlocksBehind < c)
  | none => false

/-- The queryset `not_updated` over a table. -/
def notUpdatedRows (currentBlockNumber confirmations : Int)
    (rows : List MonitoredAddressRow) : List MonitoredAddressRow :=
  rows.filter (not_updated currentBlockNumber confirmations)

/-- The queryset `almost_updated` over a table. -/
def almostUpdatedRows (currentBlockNumber updatedBlocksBehind confirmations : Int)
    (rows : List MonitoredAddressRow) : List MonitoredAddressRow :=
  rows.filter (almost_updated currentBlockNumber updatedBlocksBehind confirmations)

/-! ## Block store (`get_or_create_from_block`) -/

/-- An `EthereumBlock` row. -/
structure EthereumBlockRow where
  number : Nat
  gasLimit : Nat
  gasUsed : Nat
  timestamp : Nat
  blockHash : String
  parentHash : String
  confirmed : Bool
  deriving Repr, DecidableEq

/-- The Web3 block dictionary passed to `get_or_create_from_block`. -/
structure BlockDict where
  number : Nat
  gasLimit : Nat
  gasUsed : Nat
  timestamp : Nat
  hash : String
  parentHash : String
  deriving Repr, DecidableEq

/-- Database exceptions reaching the caller of
`get_or_create_from_block`. -/
inductive DbError where
  | integrityError
  | doesNotExist
  deriving Repr, DecidableEq

instance {ε α : Type} [DecidableEq ε] [DecidableEq α] :
    DecidableEq (Except ε α) := fun x y =>
  match x, y with
  | .ok a, .ok b =>
    if h : a = b then isTrue (by rw [h]) else
      isFalse (fun hc => h (Except.ok.inj hc))
  | .error a, .error b =>
    if h : a = b then isTrue (by rw [h]) else
      isFalse (fun hc => h (Except.error.inj hc))
  | .ok _, .error _ => isFalse (fun hc => Except.noConfusion hc)
  | .error _, .ok _ => isFalse (fun hc => Except.noConfusion hc)

/-- `self.get(number=...)`. -/
def getBlockByNumber (db : List EthereumBlockRow) (n : Nat) :
    Option EthereumBlockRow :=
  db.find? (fun r => r.number == n)

/-- Whether inserting `b` violates a unique constraint of `EthereumBlock`:
primary key `number`, unique `block_hash`, unique `parent_hash`. -/
def blockInsertConflicts (db : List EthereumBlockRow) (b : BlockDict) : Bool :=
  db.any (fun r =>
    r.number == b.number || r.blockHash == b.hash || r.parentHash == b.parentHash)

/-- The row built by `EthereumBlockManager.create_from_block`. -/
def rowOfBlockDict (b : BlockDict) (confirmed : Bool) : EthereumBlockRow :=
  { number := b.number
    gasLimit := b.gasLimit
    gasUsed := b.gasUsed
    timestamp := b.timestamp
    blockHash := b.hash
    parentHash := b.parentHash
    confirmed := confirmed }

/-- `EthereumBlockManager.get_or_create_from_block` (`models.py:77`) with the
racing interleaving made explicit: `dbAtGet` is the table as seen by the
initial `get`, `dbAtCreate` the table as seen by `create_from_block` (a
concurrent task may have inserted in between).  `create_from_block` catches
the `IntegrityError` and re-reads by `number`; a failed re-read escapes as
`DoesNotExist`.  The boolean of the `ok` result records whether a new row
was inserted. -/
def get_or_create_from_block (dbAtGet dbAtCreate : List EthereumBlockRow)
    (block : BlockDict) (confirmed : Bool) :
    Except DbError (EthereumBlockRow × Bool) :=
  match getBlockByNumber dbAtGet block.number with
  | some r => .ok (r, false)
  | none =>
    if blockInsertConflicts dbAtCreate block then
      match getBlockByNumber dbAtCreate block.number with
      | some r => .ok (r, false)
      | none => .error .doesNotExist
    else .ok (rowOfBlockDict block confirmed, true)

/-! ## Delegate-signature helper (`helpers.py`) -/

/-- UTF-8 encoding of a string, as the byte values. -/
def strBytes (s : String) : List Nat := s.toUTF8.toList.map UInt8.toNat

/-- `DelegateSignatureHelper.calculate_topt` (`helpers.py:8`):
`int((time - t0) // tx)`. -/
def calculate_topt (t : Nat) (toptTx : Nat := 3600) (toptT0 : Nat := 0) : Nat :=
  (t - toptT0) / toptTx

/-- `DelegateSignatureHelper.calculate_hash` (`helpers.py:17`), abstracted
over the `keccak` primitive (external library) and the current unix time
`t`. -/
def calculate_hash (keccak : List Nat → List Nat) (t : Nat) (address : String)
    (ethSign : Bool) : List Nat :=
  let topt := calculate_topt t
  let message := address ++ toString topt
  if ethSign then
    keccak (strBytes ("\x19Ethereum Signed Message:\n" ++ toString message.length ++ message))
  else
    keccak (strBytes message)

/-! ## ERC-20/721 event gate -/

/-- `EthereumEventManager.get_or_create_erc20_or_721_event` (`models.py:243`),
keyed on the set of keys of `decoded_event['args']` and the row key: raises
`ValueError` (`Except.error`) unless BOTH `'value'` and `'tokenId'` are
present, else proceeds to `get_or_create` on
`(transactionHash, logIndex)`. -/
def get_or_create_erc20_or_721_event (argKeys : List String)
    (transactionHash : String) (logIndex : Nat) :
    Except Unit (String × Nat) :=
  if !(argKeys.contains "value") || !(argKeys.contains "tokenId") then
    .error ()
  else
    .ok (transactionHash, logIndex)

/-- A concrete self-destruct trace frame. -/
def exTrace : Trace :=
  { type_ := "suicide"
    actionFrom := some "F"
    actionGas := none
    actionInput := none
    actionInit := none
    actionTo := none
    actionAddress := some "B"
    actionValue := none
    actionBalance := some 5
    actionCallType := none
    actionRefundAddress := some "R"
    result := none
    error := none
    traceAddress := [0, 1]
    transactionHash := "h" }

/-- The row `build_from_trace` produces for `exTrace`. -/
def exBuiltRow : InternalTxRow :=
  { ethereumTxId := "T"
    traceAddress := "0,1"
    fromAddr := some "F"
    gas := 0
    data := none
    toAddr := some "B"
    value := 5
    gasUsed := 0
    contractAddress := none
    codeBytes := none
    output := none
    refundAddress := some "R"
    txType := txTypeSELFDESTRUCT
    callType := none
    error := none }

/-- A trace frame with the unsupported type `"reward"`. -/
def exRewardTrace : Trace :=
  { type_ := "reward"
    actionFrom := none
    actionGas := none
    actionInput := none
    actionInit := none
    actionTo := none
    actionAddress := some "B"
    actionValue := none
    actionBalance := some 5
    actionCallType := none
    actionRefundAddress := none
    result := none
    error := none
    traceAddress := []
    transactionHash := "h" }

/-! ## Helper lemmas -/

theorem traceAddressToStr_append (l1 l2 : List Nat) (h2 : l2 ≠ []) (h1 : l1 ≠ []) :
    traceAddressToStr (l1 ++ l2) =
      traceAddressToStr l1 ++ "," ++ traceAddressToStr l2 := by
  induction l1 with
  | nil => exact absurd rfl h1
  | cons a as ih =>
    cases as with
    | nil =>
      cases l2 with
      | nil => exact absurd rfl h2
      | cons b bs => simp [traceAddressToStr]
    | cons c cs =>
      have hrec := ih (by simp)
      show traceAddressToStr (a :: ((c :: cs) ++ l2)) = _
      have hne : (c :: cs) ++ l2 ≠ [] := by simp
      calc traceAddressToStr (a :: ((c :: cs) ++ l2))
          = toString a ++ "," ++ traceAddressToStr ((c :: cs) ++ l2) := by
            cases hcl : (c :: cs) ++ l2 with
            | nil => exact absurd hcl hne
            | cons x xs => rfl
        _ = toString a ++ "," ++
              (traceAddressToStr (c :: cs) ++ "," ++ traceAddressToStr l2) := by
            rw [hrec]
        _ = traceAddressToStr (a :: c :: cs) ++ "," ++ traceAddressToStr l2 := by
            show _ = (toString a ++ "," ++ traceAddressToStr (c :: cs)) ++ "," ++ _
            simp [String.append_assoc]

theorem strStartsWith_append (s t : String) : strStartsWith (s ++ t) s = true := by
  unfold strStartsWith
  rw [String.data_append]
  exact List.isPrefixOf_iff_prefix.mpr (List.prefix_append _ _)

theorem strStartsWith_csv (l1 l2 : List Nat) (h2 : l2 ≠ []) :
    strStartsWith (traceAddressToStr (l1 ++ l2)) (traceAddressToStr l1) = true := by
  cases hl1 : l1 with
  | nil =>
    show strStartsWith _ "" = true
    unfold strStartsWith
    simp [List.isPrefixOf_iff_prefix]
  | cons a as =>
    rw [traceAddressToStr_append _ _ h2 (by simp), String.append_assoc]
    exact strStartsWith_append _ _

theorem parentErrored_eq_false_iff (db : Db) (itx : InternalTxRow) :
    parentErrored db itx = false ↔
      ∀ p ∈ db.internalTxs, p.ethereumTxId = itx.ethereumTxId →
        strStartsWith itx.traceAddress p.traceAddress = true → p.error = none := by
  unfold parentErrored
  rw [List.any_eq_false]
  constructor
  · intro h p hp hid hsw
    have := h p hp
    simp only [Bool.and_eq_true, beq_iff_eq, Option.isSome_iff_ne_none] at this
    by_contra herr
    exact this ⟨⟨hid, hsw⟩, herr⟩
  · intro h p hp
    simp only [Bool.and_eq_true, beq_iff_eq, Option.isSome_iff_ne_none]
    rintro ⟨⟨hid, hsw⟩, herr⟩
    exact herr (h p hp hid hsw)

theorem isDecoded_eq_false_iff (db : Db) (itx : InternalTxRow) :
    isDecoded db itx = false ↔
      ¬ ∃ d ∈ db.decodedTxs,
          d.ethereumTxId = itx.ethereumTxId ∧ d.traceAddress = itx.traceAddress := by
  unfold isDecoded
  rw [List.any_eq_false]
  simp [Bool.and_eq_true, beq_iff_eq]

theorem indexTx_internalTxs (db : Db) (txRow : EthereumTxRow)
    (traces : List InternalTxRow) (decode : InternalTxRow → Option String) :
    (indexTx db txRow traces decode).internalTxs = db.internalTxs ++ traces := rfl

theorem indexTx_decodedTxs (db : Db) (txRow : EthereumTxRow)
    (traces : List InternalTxRow) (decode : InternalTxRow → Option String) :
    (indexTx db txRow traces decode).decodedTxs = db.decodedTxs ++
      (traces.filter (fun itx =>
          can_be_decoded_inst (dbAfterInsert db txRow traces) itx
            && (decode itx).isSome)).map
        (fun itx =>
          { ethereumTxId := itx.ethereumTxId
            traceAddress := itx.traceAddress
            functionName := ((decode itx).getD "")
            processed := false }) := rfl

/-- In every reachable database state, no decoded row has a same-transaction
trace with non-NULL error whose `trace_address` is a string prefix of its
own: the decoder gate `can_be_decoded` checks `parent_is_errored` against
the complete, atomically inserted trace set of the transaction. -/
theorem reachable_erroredAncestorFreeStr (db : Db) (h : Reachable db) :
    ErroredAncestorFreeStr db := by
  induction h with
  | nil => intro d hd; simp at hd
  | index db txRow traces decode hfresh hfreshd htr hr ih =>
    intro d hd p hp hid hsw
    rw [indexTx_decodedTxs, List.mem_append] at hd
    rw [indexTx_internalTxs, List.mem_append] at hp
    rcases hd with hd | hd
    · rcases hp with hp | hp
      · exact ih d hd p hp hid hsw
      · have hdtx : d.ethereumTxId = txRow.txHash := by rw [← hid]; exact htr p hp
        exact absurd hdtx (hfreshd d hd)
    · rcases List.mem_map.mp hd with ⟨itx, hitx, hmk⟩
      rcases List.mem_filter.mp hitx with ⟨hitx_mem, hcond⟩
      rw [Bool.and_eq_true] at hcond
      have hpe : parentErrored (dbAfterInsert db txRow traces) itx = false := by
        have hcan := hcond.1
        unfold can_be_decoded_inst at hcan
        simp only [Bool.and_eq_true, Bool.not_eq_true'] at hcan
        exact hcan.2
      have hdid : d.ethereumTxId = itx.ethereumTxId := by rw [← hmk]
      have hdtr : d.traceAddress = itx.traceAddress := by rw [← hmk]
      have hp' : p ∈ (dbAfterInsert db txRow traces).internalTxs := by
        show p ∈ db.internalTxs ++ traces
        rw [List.mem_append]; exact hp
      exact (parentErrored_eq_false_iff _ _).mp hpe p hp' (hid.trans hdid)
        (hdtr ▸ hsw)

/-- C1 (amended): an `InternalTx` is selected by
`InternalTxQuerySet.can_be_decoded` iff its call type is DELEGATE_CALL, its
error is NULL, its `data` is non-NULL, its enclosing tx has status 1, it is
not already decoded, and no trace of the same transaction whose
`trace_address` is a string prefix of this one's (comma-joined form) has a
non-NULL error; consequently, in every reachable database state no
`InternalTxDecoded` row exists whose `InternalTx` has an ancestor (strict
prefix as a sequence of integers) with non-NULL error. -/
theorem can_be_decoded_correct :
    (∀ (db : Db) (itx : InternalTxRow),
        can_be_decoded_qs db itx = true ↔ AmendedDecodable db itx) ∧
    (∀ db : Db, Reachable db → ErroredAncestorFree db) := by
  constructor
  · intro db itx
    unfold can_be_decoded_qs AmendedDecodable
    simp only [Bool.and_eq_true, Bool.not_eq_true', beq_iff_eq,
      ← Option.ne_none_iff_isSome, isDecoded_eq_false_iff,
      parentErrored_eq_false_iff]
    constructor
    · rintro ⟨⟨⟨⟨⟨hdata, hct⟩, herr⟩, hst⟩, hdec⟩, hpe⟩
      refine ⟨hct, herr, hdata, hst, hdec, ?_⟩
      rintro ⟨p, hp, hpid, hsw, hperr⟩
      exact hperr (hpe p hp hpid hsw)
    · rintro ⟨hct, herr, hdata, hst, hdec, hpe⟩
      refine ⟨⟨⟨⟨⟨hdata, hct⟩, herr⟩, hst⟩, hdec⟩, ?_⟩
      intro p hp hpid hsw
      by_contra hne
      exact hpe ⟨p, hp, hpid, hsw, hne⟩
  · intro db hr d hd p hp hid hanc
    rcases hanc with ⟨l1, l2, hl2, hpl, hdl⟩
    apply reachable_erroredAncestorFreeStr db hr d hd p hp hid
    rw [hdl, hpl]
    exact strStartsWith_csv l1 l2 hl2

/-- Witness for C1: a concrete clean delegate call is selected, and the
empty (reachable) database satisfies the ancestor-error exclusion. -/
theorem can_be_decoded_correct_witness :
    can_be_decoded_qs exDbOk (exITx "0,0" (some 1) (some [1, 2]) none) = true ∧
    ErroredAncestorFree ⟨[], [], []⟩ :=
  ⟨(can_be_decoded_correct.1 exDbOk (exITx "0,0" (some 1) (some [1, 2]) none)).mpr
      (by unfold AmendedDecodable; decide),
   can_be_decoded_correct.2 ⟨[], [], []⟩ Reachable.nil⟩

/-- Counterexample to C1 as stated: in `exDb`, trace `"10"` satisfies every
clause of the claim (its only errored co-trace `"1"` is NOT an integer
sequence prefix of `[10]`) yet the queryset rejects it, because `"1"` IS a
string prefix of `"10"`; and trace `"2"` with present-but-empty calldata is
selected by the queryset although the claim requires non-empty data. -/
theorem can_be_decoded_counterexample :
    can_be_decoded_qs exDb (exITx "10" (some 1) (some [1]) none) = false ∧
    ClaimDecodable exDb (exITx "10" (some 1) (some [1]) none) ∧
    can_be_decoded_qs exDb (exITx "2" (some 1) (some []) none) = true ∧
    ¬ ClaimDecodable exDb (exITx "2" (some 1) (some []) none) := by
  refine ⟨by decide, ⟨rfl, rfl, ⟨[1], rfl, by simp⟩, by decide, by decide, ?_⟩,
    by decide, ?_⟩
  · rintro ⟨p, hp, hpid, hperr, l1, l2, hl2, hpl, hil⟩
    have hp' : p = exITx "1" none none (some "Reverted") ∨
        p = exITx "10" (some 1) (some [1]) none ∨
        p = exITx "2" (some 1) (some []) none := by
      simpa [exDb] using hp
    rcases hp' with rfl | rfl | rfl
    · have hpl' : ("1" : String) = traceAddressToStr l1 := hpl
      have hil' : ("10" : String) = traceAddressToStr (l1 ++ l2) := hil
      have hl1 : l1 ≠ [] := by
        intro h
        subst h
        exact absurd hpl' (by decide)
      rw [traceAddressToStr_append l1 l2 hl2 hl1, ← hpl'] at hil'
      have happ : ("1" ++ "," : String) = "1," := by decide
      rw [happ] at hil'
      have hdata := congrArg String.data hil'
      rw [String.data_append] at hdata
      have h10 : ("10" : String).data = ['1', '0'] := by decide
      have h1c : ("1," : String).data = ['1', ','] := by decide
      rw [h10, h1c] at hdata
      simp at hdata
    · exact hperr rfl
    · exact hperr rfl
  · rintro ⟨-, -, ⟨l, hl, hlne⟩, -, -, -⟩
    have h0 : some ([] : List Nat) = some l := hl
    exact hlne (Option.some.inj h0).symm

theorem charListLe_total : ∀ as bs : List Char,
    charListLe as bs = true ∨ charListLe bs as = true := by
  intro as
  induction as with
  | nil => intro bs; left; rfl
  | cons a as ih =>
    intro bs
    cases bs with
    | nil => right; rfl
    | cons b bs =>
      rcases lt_trichotomy a b with h | h | h
      · left; simp [charListLe, h]
      · subst h
        rcases ih bs with h' | h'
        · left; simp [charListLe, lt_self_iff_false, h']
        · right; simp [charListLe, lt_self_iff_false, h']
      · right; simp [charListLe, h]

theorem charListLe_trans : ∀ as bs cs : List Char,
    charListLe as bs = true → charListLe bs cs = true →
      charListLe as cs = true := by
  intro as
  induction as with
  | nil => intro bs cs _ _; rfl
  | cons a as ih =>
    intro bs cs h1 h2
    cases bs with
    | nil => simp [charListLe] at h1
    | cons b bs =>
      cases cs with
      | nil => simp [charListLe] at h2
      | cons c cs =>
        rcases lt_trichotomy a b with hab | hab | hab
        · rcases lt_trichotomy b c with hbc | hbc | hbc
          · simp [charListLe, lt_trans hab hbc]
          · subst hbc; simp [charListLe, hab]
          · simp [charListLe, hbc, lt_asymm hbc] at h2
        · subst hab
          rcases lt_trichotomy a c with hac | hac | hac
          · simp [charListLe, hac]
          · subst hac
            simp only [charListLe, lt_self_iff_false, if_false] at h1 h2 ⊢
            exact ih bs cs h1 h2
          · simp [charListLe, hac, lt_asymm hac] at h2
        · simp [charListLe, hab, lt_asymm hab] at h1

theorem pendingLeB_iff (r1 r2 : PendingRow) :
    pendingLeB r1 r2 = true ↔
      r1.blockId < r2.blockId ∨ (r1.blockId = r2.blockId ∧
        (r1.transactionIndex < r2.transactionIndex ∨
          (r1.transactionIndex = r2.transactionIndex ∧
            strLeB r1.traceAddress r2.traceAddress = true))) := by
  unfold pendingLeB
  split_ifs with h1 h2 h3 h4
  · simp [h1]
  · constructor
    · intro h; exact absurd h (by simp)
    · rintro (h | ⟨h, -⟩) <;> omega
  · have hb : r1.blockId = r2.blockId := by omega
    simp [hb, h3, lt_self_iff_false]
  · constructor
    · intro h; exact absurd h (by simp)
    · rintro (h | ⟨hb, h | ⟨ht, -⟩⟩) <;> omega
  · have hb : r1.blockId = r2.blockId := by omega
    have ht : r1.transactionIndex = r2.transactionIndex := by omega
    constructor
    · intro h; exact Or.inr ⟨hb, Or.inr ⟨ht, h⟩⟩
    · rintro (h | ⟨-, h | ⟨-, h⟩⟩)
      · omega
      · omega
      · exact h

instance : IsTotal PendingRow pendingLe := by
  constructor
  intro a b
  unfold pendingLe
  rw [pendingLeB_iff, pendingLeB_iff]
  rcases lt_trichotomy a.blockId b.blockId with h | h | h
  · exact Or.inl (Or.inl h)
  · rcases lt_trichotomy a.transactionIndex b.transactionIndex with h' | h' | h'
    · exact Or.inl (Or.inr ⟨h, Or.inl h'⟩)
    · rcases charListLe_total a.traceAddress.data b.traceAddress.data with hs | hs
      · exact Or.inl (Or.inr ⟨h, Or.inr ⟨h', hs⟩⟩)
      · exact Or.inr (Or.inr ⟨h.symm, Or.inr ⟨h'.symm, hs⟩⟩)
    · exact Or.inr (Or.inr ⟨h.symm, Or.inl h'⟩)
  · exact Or.inr (Or.inl h)

instance : IsTrans PendingRow pendingLe := by
  constructor
  intro a b c h1 h2
  unfold pendingLe at h1 h2 ⊢
  rw [pendingLeB_iff] at h1 h2 ⊢
  rcases h1 with h1 | ⟨hb1, h1 | ⟨ht1, hs1⟩⟩ <;>
    rcases h2 with h2 | ⟨hb2, h2 | ⟨ht2, hs2⟩⟩
  · left; omega
  · left; omega
  · left; omega
  · left; omega
  · right; exact ⟨by omega, Or.inl (by omega)⟩
  · right; exact ⟨by omega, Or.inl (by omega)⟩
  · left; omega
  · right; exact ⟨by omega, Or.inl (by omega)⟩
  · right
    refine ⟨by omega, Or.inr ⟨by omega, ?_⟩⟩
    exact charListLe_trans _ _ _ hs1 hs2

theorem optMem_iff (a : Option String) (l : List String) :
    optMem a l = true ↔ ∃ s, a = some s ∧ s ∈ l := by
  cases a with
  | none => simp [optMem]
  | some s => simp [optMem, List.elem_iff]

/-- C2 (amended): `pending_for_safes` returns exactly the not-yet-processed
decoded rows whose `internal_tx._from` is an indexed Safe or whose
`function_name` is `"setup"`, sorted ascending by block number, transaction
index, and `trace_address` compared as a text column (NOT as the sequence
of integer components). -/
theorem pending_for_safes_correct (safes : List String) (rows : List PendingRow) :
    (∀ r, r ∈ pending_for_safes safes rows ↔
        r ∈ rows ∧ r.processed = false ∧
          ((∃ a, r.fromAddr = some a ∧ a ∈ safes) ∨ r.functionName = "setup")) ∧
    List.Sorted pendingLe (pending_for_safes safes rows) := by
  constructor
  · intro r
    unfold pending_for_safes
    rw [(List.perm_insertionSort pendingLe _).mem_iff, List.mem_filter]
    simp only [Bool.and_eq_true, Bool.not_eq_true', Bool.or_eq_true, optMem_iff,
      beq_iff_eq]
  · exact List.sorted_insertionSort pendingLe _

/-- Counterexample to C2 as stated: two pending rows in the same block and
transaction with trace addresses `[2]` and `[10]` come back with `"10"`
first (text order `"10" < "2"`), while the claimed integer-sequence order
demands `[2]` before `[10]`. -/
theorem pending_for_safes_counterexample :
    pending_for_safes ["S"]
        [⟨100, 0, "2", some "S", "exec", false⟩,
          ⟨100, 0, "10", some "S", "exec", false⟩] =
      [⟨100, 0, "10", some "S", "exec", false⟩,
        ⟨100, 0, "2", some "S", "exec", false⟩] ∧
    traceAddressToStr [2] = "2" ∧ traceAddressToStr [10] = "10" ∧
    natSeqLt [2] [10] = true := by decide

theorem mem_dedupFirst (x : String) : ∀ (l seen : List String),
    x ∈ dedupFirst seen l ↔ x ∈ l ∧ x ∉ seen := by
  intro l
  induction l with
  | nil => intro seen; simp [dedupFirst]
  | cons a rest ih =>
    intro seen
    by_cases h : a ∈ seen
    · rw [dedupFirst, if_pos h, ih]
      simp only [List.mem_cons]
      constructor
      · rintro ⟨hx, hn⟩; exact ⟨Or.inr hx, hn⟩
      · rintro ⟨rfl | hx, hn⟩
        · exact absurd h hn
        · exact ⟨hx, hn⟩
    · rw [dedupFirst, if_neg h]
      simp only [List.mem_cons, ih (a :: seen)]
      constructor
      · rintro (rfl | ⟨hx, hn⟩)
        · exact ⟨Or.inl rfl, h⟩
        · exact ⟨Or.inr hx, fun hs => hn (Or.inr hs)⟩
      · rintro ⟨rfl | hx, hn⟩
        · exact Or.inl rfl
        · by_cases hxa : x = a
          · exact Or.inl hxa
          · exact Or.inr ⟨hx, fun hc => hc.elim hxa hn⟩

theorem nodup_dedupFirst : ∀ (l seen : List String), (dedupFirst seen l).Nodup := by
  intro l
  induction l with
  | nil => intro seen; simp [dedupFirst]
  | cons a rest ih =>
    intro seen
    by_cases h : a ∈ seen
    · rw [dedupFirst, if_pos h]; exact ih seen
    · rw [dedupFirst, if_neg h]
      refine List.nodup_cons.mpr ⟨?_, ih _⟩
      intro hmem
      exact ((mem_dedupFirst a rest (a :: seen)).mp hmem).2 (List.mem_cons_self _ _)

theorem dedupFirst_sublist : ∀ (l seen : List String),
    (dedupFirst seen l).Sublist l := by
  intro l
  induction l with
  | nil => intro seen; simp [dedupFirst]
  | cons a rest ih =>
    intro seen
    by_cases h : a ∈ seen
    · rw [dedupFirst, if_pos h]
      exact (ih seen).trans (List.sublist_cons_self a rest)
    · rw [dedupFirst, if_neg h]
      exact List.Sublist.cons₂ a (ih _)

/-- C3: `find_relevant_elements` with window `[from, to]` and head: writing
`T_recent = max(head - number_trace_blocks, 0)` (truncated subtraction on
naturals), if `from > T_recent` it discovers via `trace_block` only; if
`to < T_recent` it issues `trace_filter` twice (`to_address` then
`from_address`) and returns the deduplicated union; otherwise it
concatenates the `trace_filter` result over `[from, T_recent]` with the
`trace_block` result over `[T_recent, to]`, deduplicated keeping first
occurrences (no duplicates, order a sublist of the concatenation, same
membership). -/
theorem find_relevant_elements_correct
    (traceBlocks : Nat → List TraceMini)
    (traceFilter : Nat → Nat → Bool → List String → List TraceMini)
    (addresses : List String) (fromBlock toBlock currentBlock : Nat) :
    (fromBlock > currentBlock - numberTraceBlocks →
      find_relevant_elements traceBlocks traceFilter addresses fromBlock toBlock
          currentBlock =
        findRelevantUsingTraceBlock traceBlocks addresses fromBlock toBlock) ∧
    (¬ fromBlock > currentBlock - numberTraceBlocks →
      toBlock < currentBlock - numberTraceBlocks →
      (find_relevant_elements traceBlocks traceFilter addresses fromBlock toBlock
          currentBlock =
        findRelevantUsingTraceFilter traceFilter addresses fromBlock toBlock) ∧
      (find_relevant_elements traceBlocks traceFilter addresses fromBlock toBlock
          currentBlock).Nodup ∧
      (∀ x, x ∈ find_relevant_elements traceBlocks traceFilter addresses fromBlock
          toBlock currentBlock ↔
        x ∈ (traceFilter fromBlock toBlock true addresses).map
              TraceMini.transactionHash ∨
        x ∈ (traceFilter fromBlock toBlock false addresses).map
              TraceMini.transactionHash)) ∧
    (¬ fromBlock > currentBlock - numberTraceBlocks →
      ¬ toBlock < currentBlock - numberTraceBlocks →
      (find_relevant_elements traceBlocks traceFilter addresses fromBlock toBlock
          currentBlock).Nodup ∧
      (find_relevant_elements traceBlocks traceFilter addresses fromBlock toBlock
          currentBlock).Sublist
        (findRelevantUsingTraceFilter traceFilter addresses fromBlock
            (currentBlock - numberTraceBlocks) ++
          findRelevantUsingTraceBlock traceBlocks addresses
            (currentBlock - numberTraceBlocks) toBlock) ∧
      (∀ x, x ∈ find_relevant_elements traceBlocks traceFilter addresses fromBlock
          toBlock currentBlock ↔
        x ∈ findRelevantUsingTraceFilter traceFilter addresses fromBlock
              (currentBlock - numberTraceBlocks) ∨
        x ∈ findRelevantUsingTraceBlock traceBlocks addresses
              (currentBlock - numberTraceBlocks) toBlock)) := by
  refine ⟨?_, ?_, ?_⟩
  · intro h1
    unfold find_relevant_elements
    rw [if_pos h1]
  · intro h1 h2
    unfold find_relevant_elements
    rw [if_neg h1, if_pos h2]
    refine ⟨rfl, ?_, ?_⟩
    · exact nodup_dedupFirst _ _
    · intro x
      unfold findRelevantUsingTraceFilter
      rw [mem_dedupFirst]
      simp [List.mem_append]
  · intro h1 h2
    unfold find_relevant_elements
    rw [if_neg h1, if_neg h2]
    refine ⟨nodup_dedupFirst _ _, dedupFirst_sublist _ _, ?_⟩
    intro x
    rw [mem_dedupFirst]
    simp [List.mem_append]

/-- Witness for C3, exercising the mixed branch at head 20 and window
`[5, 15]` (`T_recent = 10`) with concrete oracles. -/
theorem find_relevant_elements_correct_witness :
    (find_relevant_elements (fun _ => [⟨some "S", none, "h1"⟩])
        (fun _ _ _ _ => [⟨none, some "S", "h0"⟩]) ["S"] 5 15 20).Nodup ∧
    (find_relevant_elements (fun _ => [⟨some "S", none, "h1"⟩])
        (fun _ _ _ _ => [⟨none, some "S", "h0"⟩]) ["S"] 5 15 20).Sublist
      (findRelevantUsingTraceFilter (fun _ _ _ _ => [⟨none, some "S", "h0"⟩])
          ["S"] 5 (20 - numberTraceBlocks) ++
        findRelevantUsingTraceBlock (fun _ => [⟨some "S", none, "h1"⟩])
          ["S"] (20 - numberTraceBlocks) 15) ∧
    (∀ x, x ∈ find_relevant_elements (fun _ => [⟨some "S", none, "h1"⟩])
        (fun _ _ _ _ => [⟨none, some "S", "h0"⟩]) ["S"] 5 15 20 ↔
      x ∈ findRelevantUsingTraceFilter (fun _ _ _ _ => [⟨none, some "S", "h0"⟩])
            ["S"] 5 (20 - numberTraceBlocks) ∨
      x ∈ findRelevantUsingTraceBlock (fun _ => [⟨some "S", none, "h1"⟩])
            ["S"] (20 - numberTraceBlocks) 15) :=
  (find_relevant_elements_correct (fun _ => [⟨some "S", none, "h1"⟩])
      (fun _ _ _ _ => [⟨none, some "S", "h0"⟩]) ["S"] 5 15 20).2.2
    (by decide) (by decide)

/-- C4 (amended): `update_addresses` sets the cursor to `to_block` only for
listed rows whose current cursor is `≥ from_block − 1`; a cursor does not
decrease whenever `to_block` is at least its current value, but the
operation itself lowers it when called with `to_block` below the current
cursor, so overall monotonicity depends on callers scanning forward. -/
theorem update_addresses_correct (addresses : List String)
    (fromBlockNumber blockNumber : Int) (rows : List MonitoredAddressRow) :
    update_addresses addresses fromBlockNumber blockNumber rows =
        rows.map (updateAddressRow addresses fromBlockNumber blockNumber) ∧
    (∀ r : MonitoredAddressRow,
      updateAddressRow addresses fromBlockNumber blockNumber r ≠ r →
        ∃ c, r.cursor = some c ∧ fromBlockNumber - 1 ≤ c ∧
          (updateAddressRow addresses fromBlockNumber blockNumber r).cursor =
            some blockNumber ∧
          r.address ∈ addresses) ∧
    (∀ (r : MonitoredAddressRow) (c c' : Int), r.cursor = some c →
      (updateAddressRow addresses fromBlockNumber blockNumber r).cursor = some c' →
      c ≤ blockNumber → c ≤ c') := by
  refine ⟨rfl, ?_, ?_⟩
  · intro r hne
    unfold updateAddressRow at hne ⊢
    by_cases hcond : (addresses.contains r.address
        && (match r.cursor with
            | some c => decide (fromBlockNumber - 1 ≤ c)
            | none => false)) = true
    · rw [if_pos hcond] at hne ⊢
      rw [Bool.and_eq_true] at hcond
      rcases hcond with ⟨haddr, hcur⟩
      cases hc : r.cursor with
      | none => rw [hc] at hcur; simp at hcur
      | some c =>
        rw [hc] at hcur
        refine ⟨c, rfl, by simpa using hcur, rfl, ?_⟩
        exact List.elem_iff.mp haddr
    · rw [if_neg hcond] at hne
      exact absurd rfl hne
  · intro r c c' hc hc' hle
    unfold updateAddressRow at hc'
    by_cases hcond : (addresses.contains r.address
        && (match r.cursor with
            | some c => decide (fromBlockNumber - 1 ≤ c)
            | none => false)) = true
    · rw [if_pos hcond] at hc'
      simp only at hc'
      have : c' = blockNumber := by
        have := hc'
        simp at this
        omega
      omega
    · rw [if_neg hcond] at hc'
      rw [hc] at hc'
      have : c = c' := by
        injection hc'
      omega

/-- Witness for C4: a listed row with cursor 7, window `[5, 9]`: the update
fires, its old cursor satisfied the guard, and the cursor did not
decrease. -/
theorem update_addresses_correct_witness :
    (∃ c, (⟨"A", some 7⟩ : MonitoredAddressRow).cursor = some c ∧
        (5 : Int) - 1 ≤ c ∧
        (updateAddressRow ["A"] 5 9 ⟨"A", some 7⟩).cursor = some 9 ∧
        "A" ∈ ["A"]) ∧
    (7 : Int) ≤ 9 :=
  ⟨(update_addresses_correct ["A"] 5 9 [⟨"A", some 7⟩]).2.1 ⟨"A", some 7⟩ (by decide),
   (update_addresses_correct ["A"] 5 9 [⟨"A", some 7⟩]).2.2 ⟨"A", some 7⟩ 7 9 rfl
     (by decide) (by decide)⟩

/-- Counterexample to C4 as stated: a row whose cursor (100) passes the
guard `≥ from_block − 1 = 49` is rewritten down to `to_block = 60` by
`update_addresses` itself, with no reorg rollback involved — the operation
alone does not guarantee a non-decreasing cursor. -/
theorem update_addresses_counterexample :
    update_addresses ["A"] 50 60 [⟨"A", some 100⟩] = [⟨"A", some 60⟩] ∧
    (60 : Int) < 100 := by decide

/-- C5: the field mapping of `build_from_trace`, whenever the trace type
parses: `from`, `to or address`, `value or balance or 0` (Python `or`:
`None` and `0`/empty are falsy), `input or init`, `gas` defaulting 0,
`SUICIDE` mapped to SELF_DESTRUCT, `delegatecall`/`delegatecode` mapped to
DELEGATE_CALL, result fields defaulting, `error`, `refundAddress`, and the
comma-joined `traceAddress`. -/
theorem build_from_trace_correct (trace : Trace) (txId : String)
    (itx : InternalTxRow) (h : build_from_trace trace txId = some itx) :
    itx.ethereumTxId = txId ∧
    itx.fromAddr = trace.actionFrom ∧
    itx.toAddr = (match trace.actionTo with
      | some s => if s.isEmpty then trace.actionAddress else some s
      | none => trace.actionAddress) ∧
    itx.value = (match trace.actionValue with
      | some v => if v = 0 then trace.actionBalance.getD 0 else v
      | none => trace.actionBalance.getD 0) ∧
    itx.data = (match trace.actionInput with
      | some l => if l.isEmpty then trace.actionInit else some l
      | none => trace.actionInit) ∧
    itx.gas = trace.actionGas.getD 0 ∧
    EthereumTxType.parse trace.type_ = some itx.txType ∧
    (pyUpper trace.type_ = "SUICIDE" → itx.txType = txTypeSELFDESTRUCT) ∧
    itx.callType = parse_call_type trace.actionCallType ∧
    (∀ s, trace.actionCallType = some s →
      (pyLower s = "delegatecall" ∨ pyLower s = "delegatecode") →
      itx.callType = some callTypeDELEGATE) ∧
    itx.gasUsed = (match trace.result with
      | some r => r.gasUsed.getD 0
      | none => 0) ∧
    itx.contractAddress = (match trace.result with
      | some r => r.address
      | none => none) ∧
    itx.codeBytes = (match trace.result with
      | some r => r.code
      | none => none) ∧
    itx.output = (match trace.result with
      | some r => r.output
      | none => none) ∧
    itx.error = trace.error ∧
    itx.refundAddress = trace.actionRefundAddress ∧
    itx.traceAddress = traceAddressToStr trace.traceAddress := by
  unfold build_from_trace at h
  cases hp : EthereumTxType.parse trace.type_ with
  | none => rw [hp] at h; exact absurd h (by simp)
  | some txType =>
    rw [hp] at h
    simp only [Option.some.injEq] at h
    subst h
    refine ⟨rfl, rfl, ?_, ?_, ?_, rfl, ?_, ?_, rfl, ?_, ?_, ?_, ?_, ?_, rfl, rfl,
      rfl⟩
    · show pyOrStr trace.actionTo trace.actionAddress = _
      cases trace.actionTo <;> rfl
    · show pyOrNat trace.actionValue (trace.actionBalance.getD 0) = _
      cases trace.actionValue <;> rfl
    · show pyOrBytes trace.actionInput trace.actionInit = _
      cases trace.actionInput <;> rfl
    · rfl
    · intro hu
      simp only [EthereumTxType.parse] at hp
      rw [hu] at hp
      simp [txTypeSELFDESTRUCT] at hp
      show txType = txTypeSELFDESTRUCT
      unfold txTypeSELFDESTRUCT
      omega
    · intro s hs hlow
      show parse_call_type trace.actionCallType = _
      rw [hs]
      unfold parse_call_type
      have hse : s.isEmpty = false := by
        cases hb : s.isEmpty
        · rfl
        · exfalso
          have hs0 : s = "" := (String.isEmpty_iff s).mp hb
          subst hs0
          rcases hlow with hl | hl <;> exact absurd hl (by decide)
      rcases hlow with hl | hl <;> simp [hse, hl]
    · cases trace.result <;> rfl
    · cases trace.result <;> rfl
    · cases trace.result <;> rfl
    · cases trace.result <;> rfl

/-- Witness for C5 at a concrete self-destruct trace. -/
theorem build_from_trace_correct_witness :
    exBuiltRow.ethereumTxId = "T" ∧
    exBuiltRow.fromAddr = exTrace.actionFrom ∧
    exBuiltRow.toAddr = (match exTrace.actionTo with
      | some s => if s.isEmpty then exTrace.actionAddress else some s
      | none => exTrace.actionAddress) ∧
    exBuiltRow.value = (match exTrace.actionValue with
      | some v => if v = 0 then exTrace.actionBalance.getD 0 else v
      | none => exTrace.actionBalance.getD 0) ∧
    exBuiltRow.data = (match exTrace.actionInput with
      | some l => if l.isEmpty then exTrace.actionInit else some l
      | none => exTrace.actionInit) ∧
    exBuiltRow.gas = exTrace.actionGas.getD 0 ∧
    EthereumTxType.parse exTrace.type_ = some exBuiltRow.txType ∧
    (pyUpper exTrace.type_ = "SUICIDE" → exBuiltRow.txType = txTypeSELFDESTRUCT) ∧
    exBuiltRow.callType = parse_call_type exTrace.actionCallType ∧
    (∀ s, exTrace.actionCallType = some s →
      (pyLower s = "delegatecall" ∨ pyLower s = "delegatecode") →
      exBuiltRow.callType = some callTypeDELEGATE) ∧
    exBuiltRow.gasUsed = (match exTrace.result with
      | some r => r.gasUsed.getD 0
      | none => 0) ∧
    exBuiltRow.contractAddress = (match exTrace.result with
      | some r => r.address
      | none => none) ∧
    exBuiltRow.codeBytes = (match exTrace.result with
      | some r => r.code
      | none => none) ∧
    exBuiltRow.output = (match exTrace.result with
      | some r => r.output
      | none => none) ∧
    exBuiltRow.error = exTrace.error ∧
    exBuiltRow.refundAddress = exTrace.actionRefundAddress ∧
    exBuiltRow.traceAddress = traceAddressToStr exTrace.traceAddress :=
  build_from_trace_correct exTrace "T" exBuiltRow (by decide)

/-- C6 (amended): `get_or_create_from_block` is idempotent on `number`
(an existing row is returned and nothing is created); after a concurrent
insert makes `create` fail with `IntegrityError`, the row now holding that
`number` is returned regardless of whether its hashes match the argument;
and when the integrity conflict is on `block_hash`/`parent_hash` with no
row at that `number`, the re-read escapes as `DoesNotExist` — the original
`IntegrityError` is never re-raised. -/
theorem get_or_create_from_block_correct (dbAtGet dbAtCreate : List EthereumBlockRow)
    (block : BlockDict) (confirmed : Bool) :
    (∀ r, getBlockByNumber dbAtGet block.number = some r →
      get_or_create_from_block dbAtGet dbAtCreate block confirmed = .ok (r, false)) ∧
    (getBlockByNumber dbAtGet block.number = none →
      blockInsertConflicts dbAtCreate block = true →
      ∀ r, getBlockByNumber dbAtCreate block.number = some r →
        get_or_create_from_block dbAtGet dbAtCreate block confirmed = .ok (r, false)) ∧
    (getBlockByNumber dbAtGet block.number = none →
      blockInsertConflicts dbAtCreate block = true →
      getBlockByNumber dbAtCreate block.number = none →
      get_or_create_from_block dbAtGet dbAtCreate block confirmed =
        .error .doesNotExist) ∧
    (getBlockByNumber dbAtGet block.number = none →
      blockInsertConflicts dbAtCreate block = false →
      get_or_create_from_block dbAtGet dbAtCreate block confirmed =
        .ok (rowOfBlockDict block confirmed, true)) := by
  refine ⟨?_, ?_, ?_, ?_⟩
  · intro r hr
    unfold get_or_create_from_block
    rw [hr]
  · intro h1 h2 r hr
    unfold get_or_create_from_block
    rw [h1, if_pos h2, hr]
  · intro h1 h2 h3
    unfold get_or_create_from_block
    rw [h1, if_pos h2, h3]
  · intro h1 h2
    unfold get_or_create_from_block
    rw [h1, if_neg (by rw [h2]; exact Bool.false_ne_true)]

/-- Witness for C6: the row for block 5 already exists, so it is returned
unchanged and nothing is created. -/
theorem get_or_create_from_block_correct_witness :
    get_or_create_from_block [⟨5, 1, 1, 9, "h1", "p1", false⟩]
        [⟨5, 1, 1, 9, "h1", "p1", false⟩] ⟨5, 1, 1, 9, "h1", "p1"⟩ false =
      .ok (⟨5, 1, 1, 9, "h1", "p1", false⟩, false) :=
  (get_or_create_from_block_correct [⟨5, 1, 1, 9, "h1", "p1", false⟩]
      [⟨5, 1, 1, 9, "h1", "p1", false⟩] ⟨5, 1, 1, 9, "h1", "p1"⟩ false).1
    ⟨5, 1, 1, 9, "h1", "p1", false⟩ (by decide)

/-- Counterexample to C6 as stated: (a) the concurrent row at number 5 has a
divergent hash (`"h1"` vs the argument's `"h2"`), i.e. it is NOT the same
logical row, yet `get_or_create_from_block` returns it instead of
re-raising; (b) an integrity conflict on `block_hash` at a *different*
number escapes as `DoesNotExist`, not as the original integrity error. -/
theorem get_or_create_from_block_counterexample :
    (get_or_create_from_block [] [⟨5, 1, 1, 9, "h1", "p1", false⟩]
        ⟨5, 1, 1, 9, "h2", "p2"⟩ false =
      .ok (⟨5, 1, 1, 9, "h1", "p1", false⟩, false)) ∧
    ("h1" : String) ≠ "h2" ∧
    (get_or_create_from_block [] [⟨7, 1, 1, 9, "h2", "p2", false⟩]
        ⟨5, 1, 1, 9, "h2", "p9"⟩ false = .error .doesNotExist) ∧
    DbError.doesNotExist ≠ DbError.integrityError := by decide

/-- C7 (amended): `not_updated` returns exactly the rows whose (non-NULL)
cursor is `< head − confirmations`; `almost_updated` returns exactly the
rows whose cursor lies STRICTLY between `head − updated_blocks_behind` and
`head − confirmations` (open interval on both ends, not inclusive). -/
theorem monitored_address_queries_correct (head behind conf : Int)
    (rows : List MonitoredAddressRow) :
    (∀ r, r ∈ notUpdatedRows head conf rows ↔
        r ∈ rows ∧ ∃ c, r.cursor = some c ∧ c < head - conf) ∧
    (∀ r, r ∈ almostUpdatedRows head behind conf rows ↔
        r ∈ rows ∧ ∃ c, r.cursor = some c ∧
          head - behind < c ∧ c < head - conf) := by
  constructor
  · intro r
    rw [notUpdatedRows, List.mem_filter]
    cases hc : r.cursor <;> simp [not_updated, hc]
  · intro r
    rw [almostUpdatedRows, List.mem_filter]
    cases hc : r.cursor <;> simp [almost_updated, hc, and_comm]

/-- Counterexample to C7 as stated: with head 100, `updated_behind` 20 and
`confirmations` 10, the claimed inclusive interval is `[80, 90]`, yet a row
with cursor exactly 90 (`= head − confirmations`) is NOT returned by
`almost_updated` (and neither is one at 80). -/
theorem almost_updated_counterexample :
    almostUpdatedRows 100 20 10 [⟨"A", some 90⟩, ⟨"A2", some 80⟩] = [] ∧
    (100 : Int) - 20 ≤ 80 ∧ (80 : Int) ≤ 100 - 10 ∧
    (100 : Int) - 20 ≤ 90 ∧ (90 : Int) ≤ 100 - 10 := by decide

/-- C8: the delegate-signature hash is keccak over the UTF-8 bytes of the
address concatenated with the decimal representation of
`floor(t / 3600)`; with `eth_sign`, keccak over
`"\x19Ethereum Signed Message:\n"` followed by the decimal length of that
message followed by the message itself. -/
theorem calculate_hash_correct (keccak : List Nat → List Nat) (t : Nat)
    (address : String) :
    calculate_hash keccak t address false =
      keccak (strBytes (address ++ toString (t / 3600))) ∧
    calculate_hash keccak t address true =
      keccak (strBytes ("\x19Ethereum Signed Message:\n" ++
        toString (address ++ toString (t / 3600)).length ++
        (address ++ toString (t / 3600)))) :=
  ⟨rfl, rfl⟩

/-- C9: the transfer-event gate raises `ValueError` exactly when the decoded
arguments lack `'value'` or lack `'tokenId'`; it stores only when BOTH are
present, so plain ERC-20 (only `value`) and plain ERC-721 (only `tokenId`)
events are rejected. -/
theorem erc20_721_event_gate_correct (argKeys : List String) (txHash : String)
    (logIndex : Nat) :
    ((get_or_create_erc20_or_721_event argKeys txHash logIndex = .error ()) ↔
      ("value" ∉ argKeys ∨ "tokenId" ∉ argKeys)) ∧
    ((get_or_create_erc20_or_721_event argKeys txHash logIndex =
        .ok (txHash, logIndex)) ↔
      ("value" ∈ argKeys ∧ "tokenId" ∈ argKeys)) ∧
    get_or_create_erc20_or_721_event ["value", "to", "from"] txHash logIndex =
      .error () ∧
    get_or_create_erc20_or_721_event ["tokenId", "to", "from"] txHash logIndex =
      .error () := by
  refine ⟨?_, ?_, rfl, rfl⟩
  · by_cases h1 : "value" ∈ argKeys <;> by_cases h2 : "tokenId" ∈ argKeys <;>
      simp [get_or_create_erc20_or_721_event, h1, h2, List.elem_iff]
  · by_cases h1 : "value" ∈ argKeys <;> by_cases h2 : "tokenId" ∈ argKeys <;>
      simp [get_or_create_erc20_or_721_event, h1, h2, List.elem_iff]

/-- C10: `EthereumTxType.parse` returns CALL, CREATE, SELF_DESTRUCT exactly
for type strings whose upper-casing is `CALL`, `CREATE`, `SUICIDE`
(case-insensitive matching), raises `ValueError` for everything else, and
`build_from_trace` therefore fails on any other trace type such as
`"reward"`. -/
theorem ethereum_tx_type_parse_correct :
    (∀ s : String, EthereumTxType.parse s = some txTypeCALL ↔ pyUpper s = "CALL") ∧
    (∀ s : String,
      EthereumTxType.parse s = some txTypeCREATE ↔ pyUpper s = "CREATE") ∧
    (∀ s : String,
      EthereumTxType.parse s = some txTypeSELFDESTRUCT ↔ pyUpper s = "SUICIDE") ∧
    (∀ s : String, (EthereumTxType.parse s).isSome ↔
      (pyUpper s = "CALL" ∨ pyUpper s = "CREATE" ∨ pyUpper s = "SUICIDE")) ∧
    (∀ (trace : Trace) (txId : String), EthereumTxType.parse trace.type_ = none →
      build_from_trace trace txId = none) ∧
    EthereumTxType.parse "suicide" = some txTypeSELFDESTRUCT ∧
    EthereumTxType.parse "reward" = none := by
  refine ⟨?_, ?_, ?_, ?_, ?_, by decide, by decide⟩
  · intro s
    simp only [EthereumTxType.parse]
    split_ifs with h1 h2 h3 <;>
      simp_all [txTypeCALL, txTypeCREATE, txTypeSELFDESTRUCT]
  · intro s
    simp only [EthereumTxType.parse]
    split_ifs with h1 h2 h3 <;>
      simp_all [txTypeCALL, txTypeCREATE, txTypeSELFDESTRUCT]
  · intro s
    simp only [EthereumTxType.parse]
    split_ifs with h1 h2 h3 <;>
      simp_all [txTypeCALL, txTypeCREATE, txTypeSELFDESTRUCT]
  · intro s
    simp only [EthereumTxType.parse]
    split_ifs with h1 h2 h3 <;> simp_all
  · intro trace txId h
    unfold build_from_trace
    rw [h]

/-- Witness for C10: `build_from_trace` fails on the `"reward"` trace. -/
theorem ethereum_tx_type_parse_correct_witness :
    build_from_trace exRewardTrace "T" = none :=
  ethereum_tx_type_parse_correct.2.2.2.2.1 exRewardTrace "T" (by decide)

end SafeTxService
